import Mathlib

/-!
# Verification of the scriptize shell-execution wrapper

A shallow embedding of `src/scriptize/assets/python/utilities/shell.py`
(the `run` / `run_parallel` command executor), with theorems settling the
specification claims about it.

Modelling conventions:

* A spawned process's observable behaviour is a `ProcBehavior`: the list of
  lines it emits, in emission order, each tagged with the stream it goes to
  (`true` = stdout, `false` = stderr), together with its exit code and pid.
* The operating system's pipe buffer is modelled with a capacity `cap`,
  counted in lines.  The parent in `_execute_process` reads `proc.stdout`
  to end-of-file first and only then reads `proc.stderr` (the two `for`
  loops are sequential in the source).  While the parent is in the stdout
  loop, stdout lines are consumed as they arrive, but stderr lines pile up
  in the stderr pipe; once more than `cap` stderr lines are pending, the
  child blocks on its stderr write, the parent blocks waiting on stdout,
  and the call never returns.  `simulateDrain` returns `none` exactly in
  that case.  A call of `run` that never returns is modelled as `none`.
* `subprocess.Popen` raises `FileNotFoundError` when the executable named
  by `argv[0]` cannot be located, and raises `IndexError` (before creating
  any process) when called with an empty argument vector; `shlex.split`
  raises `ValueError` on an unclosed quotation or a trailing escape
  character.  These library behaviours are part of the environment the
  code runs in and are modelled by `PopenError` / the `Option` result of
  `shlexSplit`.
* Side effects (creating a process, writing to the caller's stdout/stderr,
  printing a blank line, framed-box display, diagnostic messages) are
  collected in a `List Effect` so that claims about which side effects an
  option does or does not produce can be stated.
-/

namespace Scriptize

/-- The result dataclass `ShellResult` of `shell.py` (frozen dataclass:
stdout, stderr, returncode, pid).  Being a Lean structure, it is immutable
once constructed, as the frozen dataclass is in the source. -/
structure ShellResult where
  stdout : String
  stderr : String
  returncode : Int
  pid : Int
  deriving DecidableEq, Repr

/-- The four values of the `output_mode` literal of `shell.run`. -/
inductive OutputMode where
  | stream
  | frame
  | capture
  | silent
  deriving DecidableEq, Repr

/-- Observable behaviour of one spawned process: the lines it writes, in
emission order (`true` = stdout, `false` = stderr), its exit code, and its
operating-system process id (OS pids are nonnegative). -/
structure ProcBehavior where
  writes : List (Bool × String)
  exitCode : Int
  pid : Nat

/-- The environment the executor runs in: which executables the OS can
locate, and how the process spawned for a given argument vector behaves. -/
structure Env where
  locatable : String → Bool
  behavior : List String → ProcBehavior

/-- Side effects of the wrapper, in the order they occur. -/
inductive Effect where
  | spawn (argv : List String)
  | stdoutWrite (line : String)
  | stderrWrite (line : String)
  | consoleLine
  | framedBox (content : String) (title : String) (style : String)
  | infoMsg (msg : String)
  deriving DecidableEq, Repr

/-- Errors a call of `shell.run` can raise. -/
inductive RunError where
  /-- `ValueError` from `shlex.split` (unclosed quotation / trailing escape). -/
  | valueError
  /-- `IndexError` from `subprocess.Popen([])`: the empty argument vector
  reaches the spawn facility, which fails looking up `args[0]`. -/
  | indexError
  /-- `FileNotFoundError`, re-raised by `run` with the given message. -/
  | commandNotFound (msg : String)
  /-- `subprocess.CalledProcessError(returncode, cmd, output, stderr)`. -/
  | commandFailed (returncode : Int) (cmd : List String) (output : String) (stderr : String)
  deriving DecidableEq, Repr

/-! ## The tokenizer: `shlex.split` in POSIX mode -/

/-- The whitespace characters `shlex` splits on. -/
def isShlexSpace (c : Char) : Bool :=
  c == ' ' || c == '\t' || c == '\r' || c == '\n'

/-- Lexing mode: outside quotes, inside single quotes, inside double quotes. -/
inductive LexMode where
  | normal
  | single
  | double
  deriving DecidableEq, Repr

/-- Append the current token (held in reverse) to the accumulator, when one
is open. -/
def flushTok (cur : Option (List Char)) (acc : List (List Char)) : List (List Char) :=
  match cur with
  | none => acc
  | some t => t.reverse :: acc

/-- Core of `shlex.split` (POSIX mode): walks the characters, tracking the
quote mode, the current token (reversed) and the finished tokens (reversed
order).  Returns `none` where the Python lexer raises `ValueError`
("No closing quotation" / "No escaped character"). -/
def shlexCore : List Char → LexMode → Option (List Char) → List (List Char) →
    Option (List (List Char))
  | [], .normal, cur, acc => some (flushTok cur acc).reverse
  | [], .single, _, _ => none
  | [], .double, _, _ => none
  | c :: rest, .normal, cur, acc =>
    if isShlexSpace c then
      shlexCore rest .normal none (flushTok cur acc)
    else if c == '\'' then
      shlexCore rest .single (some (cur.getD [])) acc
    else if c == '"' then
      shlexCore rest .double (some (cur.getD [])) acc
    else if c == '\\' then
      match rest with
      | [] => none
      | d :: rest2 => shlexCore rest2 .normal (some (d :: cur.getD [])) acc
    else
      shlexCore rest .normal (some (c :: cur.getD [])) acc
  | c :: rest, .single, cur, acc =>
    if c == '\'' then
      shlexCore rest .normal cur acc
    else
      shlexCore rest .single (some (c :: cur.getD [])) acc
  | c :: rest, .double, cur, acc =>
    if c == '"' then
      shlexCore rest .normal cur acc
    else if c == '\\' then
      match rest with
      | [] => none
      | d :: rest2 =>
        if d == '"' || d == '\\' then
          shlexCore rest2 .double (some (d :: cur.getD [])) acc
        else
          shlexCore rest2 .double (some (d :: '\\' :: cur.getD [])) acc
    else
      shlexCore rest .double (some (c :: cur.getD [])) acc

/-- `shlex.split` in POSIX mode, as used by `shell.run`: `none` models the
`ValueError` the Python lexer raises on malformed input. -/
def shlexSplit (s : String) : Option (List String) :=
  (shlexCore s.toList .normal none []).map (List.map fun cs => String.mk cs)

example : shlexSplit "" = some [] := by rfl
example : shlexSplit "   " = some [] := by rfl
example : shlexSplit "a b" = some ["a", "b"] := by rfl
example : shlexSplit "echo 'hello world'" = some ["echo", "hello world"] := by rfl
example : shlexSplit "a\"b c\"d" = some ["ab cd"] := by rfl
example : shlexSplit "''" = some [""] := by rfl
example : shlexSplit "\"abc" = none := by rfl

/-! ## The sequential pipe drain of `_execute_process` -/

/-- Simulation of the parent's drain of the two pipes, as written in
`_execute_process`: the stdout `for` loop runs first, so stdout lines are
consumed as they arrive (`outAcc`, reversed), while stderr lines pile up in
the stderr pipe buffer (`errBuf`, reversed, capacity `cap` lines).  If a
stderr line arrives with the buffer full, the child blocks writing it while
the parent is still blocked reading stdout: deadlock, `none`.  If the child
finishes all emissions, the parent sees stdout end-of-file, then drains the
buffered stderr lines in order. -/
def simulateDrain (cap : Nat) :
    List (Bool × String) → List String → List String → Option (List String × List String)
  | [], outAcc, errBuf => some (outAcc.reverse, errBuf.reverse)
  | (true, l) :: rest, outAcc, errBuf => simulateDrain cap rest (l :: outAcc) errBuf
  | (false, l) :: rest, outAcc, errBuf =>
    if errBuf.length < cap then simulateDrain cap rest outAcc (l :: errBuf)
    else none

/-- Spawn-time errors of `subprocess.Popen`. -/
inductive PopenError where
  | indexError
  | fileNotFound
  deriving DecidableEq, Repr

/-- `_execute_process(args, should_stream_raw, cwd)`: spawns the process
and drains both pipes (stdout loop first, then stderr loop), accumulating
every line and, when `should_stream_raw`, relaying each line to the
caller's own stream.  `Except.ok none` models a call that never returns
(pipe-buffer deadlock).  On completion the accumulated lines of each
stream are concatenated into the `ShellResult`. -/
def _execute_process (cap : Nat) (env : Env) (args : List String)
    (should_stream_raw : Bool) :
    Except PopenError (Option (ShellResult × List Effect)) :=
  match args with
  | [] => .error .indexError
  | a0 :: _ =>
    if env.locatable a0 then
      let p := env.behavior args
      match simulateDrain cap p.writes [] [] with
      | none => .ok none
      | some (outs, errs) =>
        .ok (some
          ({ stdout := String.join outs
             stderr := String.join errs
             returncode := p.exitCode
             pid := (p.pid : Int) },
           Effect.spawn args ::
             (if should_stream_raw then
               outs.map Effect.stdoutWrite ++ errs.map Effect.stderrWrite
             else [])))
    else .error .fileNotFound

/-! ## `run` and its helpers -/

/-- `_handle_dry_run(command)`: report the command line to the diagnostic
collaborator (`cli.info`) and return the mock result. -/
def _handle_dry_run (command : String) : ShellResult × List Effect :=
  ({ stdout := "", stderr := "", returncode := 0, pid := -1 },
   [Effect.infoMsg ("[DRY RUN] Would execute: [bold]" ++ command ++ "[/bold]")])

/-- `_frame_output(command, result)`: on success frame stripped stdout (if
nonempty), on failure frame stripped stderr (if nonempty); skip entirely
when the relevant stream is empty. -/
def _frame_output (command : String) (result : ShellResult) : List Effect :=
  if result.returncode = 0 then
    if result.stdout = "" then []
    else [Effect.framedBox result.stdout.trim
      ("Output of: [bold]" ++ command ++ "[/bold]") "info"]
  else
    if result.stderr = "" then []
    else [Effect.framedBox result.stderr.trim
      ("Error from: [bold]" ++ command ++ "[/bold]") "error"]

/-- `shell.run(command, check, output_mode, dry_run, cwd)`.  The outer
`Option` is `none` when the call never returns (deadlocked drain); the
`Except` carries the exception the call raises, if any; the effect list
records the side effects the call performed. -/
def run (cap : Nat) (env : Env) (command : String) (check : Bool)
    (output_mode : OutputMode) (dry_run : Bool) :
    Option (Except RunError ShellResult × List Effect) :=
  if dry_run then
    let (r, effs) := _handle_dry_run command
    some (.ok r, effs)
  else
    match shlexSplit command with
    | none => some (.error .valueError, [])
    | some args =>
      let should_stream_raw := output_mode = OutputMode.stream
      let should_frame := output_mode = OutputMode.frame
      match _execute_process cap env args (decide should_stream_raw) with
      | .error .indexError => some (.error .indexError, [])
      | .error .fileNotFound =>
        some (.error (.commandNotFound ("Command not found: " ++ args.headD "")), [])
      | .ok none => none
      | .ok (some (result, effs0)) =>
        let effs1 := effs0 ++
          (if should_stream_raw ∧ (result.stdout ≠ "" ∨ result.stderr ≠ "") then
            [Effect.consoleLine]
          else [])
        let effs2 := effs1 ++ (if should_frame then _frame_output command result else [])
        if check = true ∧ result.returncode ≠ 0 then
          some (.error (.commandFailed result.returncode args result.stdout result.stderr),
            effs2)
        else
          some (.ok result, effs2)

/-! ## `run_parallel` -/

/-- The synthetic result `run_parallel` stores when spawning a command
failed with `FileNotFoundError e`:
`ShellResult(stdout="", stderr=str(e), returncode=1, pid=-1)`. -/
def syntheticFailure (msg : String) : ShellResult :=
  { stdout := "", stderr := msg, returncode := 1, pid := -1 }

/-- Insertion into a Python `dict`, modelled as an association list in
insertion order: writing to an existing key overwrites the value in place,
a new key is appended at the end. -/
def dictInsert (k : String) (v : ShellResult) :
    List (String × ShellResult) → List (String × ShellResult)
  | [] => [(k, v)]
  | (k', v') :: rest =>
    if k' = k then (k, v) :: rest else (k', v') :: dictInsert k v rest

/-- Python `dict` lookup on the association list. -/
def dictFind (k : String) : List (String × ShellResult) → Option ShellResult
  | [] => none
  | (k', v') :: rest => if k' = k then some v' else dictFind k rest

/-- The worker loop of `run_parallel`: each command is dispatched to
`run(cmd, output_mode="capture", check=False)`; a completed future's result
is stored under the command string; a `FileNotFoundError` is captured as a
`syntheticFailure`; any other exception escaping a future propagates out of
the batch (`Except.error`).  A command whose `run` never returns leaves the
batch waiting forever (`none`).  Since the result of each command depends
only on the command and the environment, the nondeterministic completion
order of the futures cannot change the final mapping, and the loop is
modelled in submission order. -/
def runParallelGo (cap : Nat) (env : Env) :
    List String → List (String × ShellResult) →
    Option (Except RunError (List (String × ShellResult)))
  | [], acc => some (.ok acc)
  | cmd :: rest, acc =>
    match run cap env cmd false OutputMode.capture false with
    | none => none
    | some (.ok r, _) => runParallelGo cap env rest (dictInsert cmd r acc)
    | some (.error (.commandNotFound msg), _) =>
      runParallelGo cap env rest (dictInsert cmd (syntheticFailure msg) acc)
    | some (.error e, _) => some (.error e)

/-- `shell.run_parallel(commands, ...)`: the result mapping from command
strings to their `ShellResult`s. -/
def run_parallel (cap : Nat) (env : Env) (commands : List String) :
    Option (Except RunError (List (String × ShellResult))) :=
  runParallelGo cap env commands []

/-- The outcome `run_parallel` records for one command considered on its
own: the result of `run(cmd, output_mode="capture", check=False)`, with a
spawn failure captured as a `syntheticFailure`, and `none` when that call
raises some other exception or never returns. -/
def singleOutcome (cap : Nat) (env : Env) (cmd : String) : Option ShellResult :=
  match run cap env cmd false OutputMode.capture false with
  | some (.ok r, _) => some r
  | some (.error (.commandNotFound msg), _) => some (syntheticFailure msg)
  | _ => none

/-- Whether `run` of this command creates a real OS process: the command
tokenizes to a nonempty argument vector whose first token the OS can
locate. -/
def realProcessCreated (env : Env) (cmd : String) : Bool :=
  match shlexSplit cmd with
  | some (a0 :: _) => env.locatable a0
  | _ => false

/-! ## A concrete environment for sanity checks and witnesses -/

/-- A small concrete environment: `prog` emits one line on each stream and
exits 0; `chatty` emits three stderr lines and exits 0; `failing` emits one
stderr line and exits 2; `printf` with the argument of the C9 scenario
emits `a\nb\nc` on stdout; nothing else is locatable. -/
def envDemo : Env where
  locatable := fun s => s = "prog" || s = "chatty" || s = "failing" || s = "printf"
  behavior := fun args =>
    match args with
    | ["prog"] => { writes := [(true, "out\n"), (false, "err\n")], exitCode := 0, pid := 42 }
    | ["chatty"] =>
      { writes := [(false, "e1\n"), (false, "e2\n"), (false, "e3\n")], exitCode := 0, pid := 43 }
    | ["failing"] => { writes := [(false, "boom\n")], exitCode := 2, pid := 44 }
    | ["printf", "a\\nb\\nc"] =>
      { writes := [(true, "a\n"), (true, "b\n"), (true, "c")], exitCode := 0, pid := 7 }
    | _ => { writes := [], exitCode := 0, pid := 99 }

example :
    run 4 envDemo "prog" true OutputMode.capture false =
      some (.ok { stdout := "out\n", stderr := "err\n", returncode := 0, pid := 42 },
        [Effect.spawn ["prog"]]) := by rfl

example :
    run 2 envDemo "chatty" true OutputMode.capture false = none := by rfl

example :
    run 4 envDemo "failing" true OutputMode.capture false =
      some (.error (.commandFailed 2 ["failing"] "" "boom\n"), [Effect.spawn ["failing"]]) := by
  rfl

example :
    run 4 envDemo "missing" false OutputMode.capture false =
      some (.error (.commandNotFound "Command not found: missing"), []) := by rfl

example :
    run 4 envDemo "" true OutputMode.capture false =
      some (.error .indexError, []) := by rfl

example :
    run_parallel 4 envDemo ["prog", "missing", "failing"] =
      some (.ok
        [("prog", { stdout := "out\n", stderr := "err\n", returncode := 0, pid := 42 }),
         ("missing", syntheticFailure "Command not found: missing"),
         ("failing", { stdout := "", stderr := "boom\n", returncode := 2, pid := 44 })]) := by
  rfl

/-! ## Lemmas about the drain simulation -/

/-- The stdout lines of a process behaviour, in emission order. -/
def outLines (ws : List (Bool × String)) : List String :=
  (ws.filter fun w => w.1).map Prod.snd

/-- The stderr lines of a process behaviour, in emission order. -/
def errLines (ws : List (Bool × String)) : List String :=
  (ws.filter fun w => !w.1).map Prod.snd

@[simp] lemma outLines_nil : outLines [] = [] := rfl

@[simp] lemma outLines_cons_true (l : String) (ws : List (Bool × String)) :
    outLines ((true, l) :: ws) = l :: outLines ws := rfl

@[simp] lemma outLines_cons_false (l : String) (ws : List (Bool × String)) :
    outLines ((false, l) :: ws) = outLines ws := rfl

@[simp] lemma errLines_nil : errLines [] = [] := rfl

@[simp] lemma errLines_cons_true (l : String) (ws : List (Bool × String)) :
    errLines ((true, l) :: ws) = errLines ws := rfl

@[simp] lemma errLines_cons_false (l : String) (ws : List (Bool × String)) :
    errLines ((false, l) :: ws) = l :: errLines ws := rfl

/-- When the sequential drain completes, it yields exactly the stdout lines
and the stderr lines of the process, each stream in its own emission
order. -/
lemma simulateDrain_some (cap : Nat) (ws : List (Bool × String)) :
    ∀ (outAcc errBuf outs errs : List String),
      simulateDrain cap ws outAcc errBuf = some (outs, errs) →
      outs = outAcc.reverse ++ outLines ws ∧ errs = errBuf.reverse ++ errLines ws := by
  induction ws with
  | nil =>
    intro outAcc errBuf outs errs h
    simp only [simulateDrain, Option.some.injEq, Prod.mk.injEq] at h
    simp [← h.1, ← h.2]
  | cons w rest ih =>
    obtain ⟨b, l⟩ := w
    intro outAcc errBuf outs errs h
    cases b with
    | true =>
      have h' := ih (l :: outAcc) errBuf outs errs h
      simpa using h'
    | false =>
      rw [simulateDrain] at h
      by_cases hlt : errBuf.length < cap
      · rw [if_pos hlt] at h
        have h' := ih outAcc (l :: errBuf) outs errs h
        simpa using h'
      · rw [if_neg hlt] at h
        exact absurd h (by simp)

/-- The sequential drain deadlocks exactly when the stderr lines still to
be emitted overflow what is left of the stderr pipe buffer. -/
lemma simulateDrain_eq_none_iff (cap : Nat) (ws : List (Bool × String)) :
    ∀ (outAcc errBuf : List String), errBuf.length ≤ cap →
      (simulateDrain cap ws outAcc errBuf = none ↔
        cap < errBuf.length + (errLines ws).length) := by
  induction ws with
  | nil =>
    intro outAcc errBuf hle
    simp only [simulateDrain, errLines_nil, List.length_nil, Nat.add_zero]
    constructor
    · intro h; exact absurd h (by simp)
    · intro h; omega
  | cons w rest ih =>
    obtain ⟨b, l⟩ := w
    intro outAcc errBuf hle
    cases b with
    | true =>
      rw [simulateDrain, errLines_cons_true]
      exact ih (l :: outAcc) errBuf hle
    | false =>
      rw [simulateDrain, errLines_cons_false]
      by_cases hlt : errBuf.length < cap
      · rw [if_pos hlt]
        have h' := ih outAcc (l :: errBuf) (by simpa using hlt)
        rw [h']
        simp only [List.length_cons]
        omega
      · rw [if_neg hlt]
        simp only [List.length_cons]
        constructor
        · intro _; omega
        · intro _; trivial

/-! ## Lemmas about the dictionary model -/

@[simp] lemma dictFind_dictInsert_self (k : String) (v : ShellResult)
    (l : List (String × ShellResult)) :
    dictFind k (dictInsert k v l) = some v := by
  induction l with
  | nil => simp [dictInsert, dictFind]
  | cons p rest ih =>
    obtain ⟨k', v'⟩ := p
    by_cases h : k' = k
    · simp [dictInsert, dictFind, h]
    · simp [dictInsert, dictFind, h, ih]

lemma dictFind_dictInsert_ne (k k' : String) (v : ShellResult)
    (l : List (String × ShellResult)) (h : k' ≠ k) :
    dictFind k' (dictInsert k v l) = dictFind k' l := by
  induction l with
  | nil =>
    simp [dictInsert, dictFind, Ne.symm h]
  | cons p rest ih =>
    obtain ⟨k0, v0⟩ := p
    by_cases h0 : k0 = k
    · subst h0
      simp [dictInsert, dictFind, Ne.symm h]
    · rw [dictInsert, if_neg h0]
      simp only [dictFind, ih]

lemma dictInsert_keys (k : String) (v : ShellResult) (l : List (String × ShellResult)) :
    (dictInsert k v l).map Prod.fst =
      if k ∈ l.map Prod.fst then l.map Prod.fst else l.map Prod.fst ++ [k] := by
  induction l with
  | nil => simp [dictInsert]
  | cons p rest ih =>
    obtain ⟨k0, v0⟩ := p
    by_cases h0 : k0 = k
    · subst h0
      simp [dictInsert]
    · simp only [dictInsert, if_neg h0, List.map_cons, ih]
      by_cases hm : k ∈ rest.map Prod.fst
      · simp [hm, Ne.symm h0]
      · simp [hm, Ne.symm h0]

lemma dictInsert_keys_nodup (k : String) (v : ShellResult)
    (l : List (String × ShellResult)) (h : (l.map Prod.fst).Nodup) :
    ((dictInsert k v l).map Prod.fst).Nodup := by
  rw [dictInsert_keys]
  by_cases hm : k ∈ l.map Prod.fst
  · simpa [hm] using h
  · simp only [hm, if_false]
    exact List.Nodup.append h (List.nodup_singleton k) (by simpa using hm)

lemma dictInsert_mem (k : String) (v : ShellResult) :
    ∀ (l : List (String × ShellResult)) (p : String × ShellResult),
      p ∈ dictInsert k v l → p = (k, v) ∨ p ∈ l := by
  intro l
  induction l with
  | nil =>
    intro p h
    simpa [dictInsert] using h
  | cons q rest ih =>
    intro p h
    obtain ⟨k0, v0⟩ := q
    rw [dictInsert] at h
    by_cases h0 : k0 = k
    · rw [if_pos h0] at h
      rcases List.mem_cons.mp h with h1 | h1
      · exact Or.inl h1
      · exact Or.inr (List.mem_cons_of_mem _ h1)
    · rw [if_neg h0] at h
      rcases List.mem_cons.mp h with h1 | h1
      · exact Or.inr (List.mem_cons.mpr (Or.inl h1))
      · rcases ih p h1 with h2 | h2
        · exact Or.inl h2
        · exact Or.inr (List.mem_cons_of_mem _ h2)

lemma mem_keys_iff_dictFind_isSome (k : String) (l : List (String × ShellResult)) :
    k ∈ l.map Prod.fst ↔ (dictFind k l).isSome := by
  induction l with
  | nil => simp [dictFind]
  | cons p rest ih =>
    obtain ⟨k0, v0⟩ := p
    by_cases h0 : k0 = k
    · simp [dictFind, h0]
    · simp [dictFind, h0, Ne.symm h0, ih]

/-! ## Path characterizations of `run` -/

/-- The `ShellResult` built at the end of `_execute_process`. -/
def drainResult (p : ProcBehavior) (outs errs : List String) : ShellResult :=
  { stdout := String.join outs
    stderr := String.join errs
    returncode := p.exitCode
    pid := (p.pid : Int) }

/-- The effect list of a completed non-dry `run` call: the spawn, the
raw-streamed lines (`stream` mode), the trailing blank line (`stream` mode
with nonempty output), and the framed display (`frame` mode). -/
def runEffects (command : String) (mode : OutputMode) (args : List String)
    (outs errs : List String) (result : ShellResult) : List Effect :=
  (Effect.spawn args ::
    (if mode = OutputMode.stream then
      outs.map Effect.stdoutWrite ++ errs.map Effect.stderrWrite
    else [])) ++
  (if mode = OutputMode.stream ∧ (result.stdout ≠ "" ∨ result.stderr ≠ "") then
    [Effect.consoleLine]
  else []) ++
  (if mode = OutputMode.frame then _frame_output command result else [])

lemma run_dry_eq (cap : Nat) (env : Env) (command : String) (check : Bool)
    (mode : OutputMode) :
    run cap env command check mode true =
      some (.ok { stdout := "", stderr := "", returncode := 0, pid := -1 },
        [Effect.infoMsg ("[DRY RUN] Would execute: [bold]" ++ command ++ "[/bold]")]) := rfl

lemma run_valueError_eq (cap : Nat) (env : Env) (command : String) (check : Bool)
    (mode : OutputMode) (hs : shlexSplit command = none) :
    run cap env command check mode false = some (.error .valueError, []) := by
  simp [run, hs]

lemma run_empty_argv_eq (cap : Nat) (env : Env) (command : String) (check : Bool)
    (mode : OutputMode) (hs : shlexSplit command = some []) :
    run cap env command check mode false = some (.error .indexError, []) := by
  simp [run, hs, _execute_process]

lemma run_commandNotFound_eq (cap : Nat) (env : Env) (command : String) (check : Bool)
    (mode : OutputMode) (a0 : String) (rest : List String)
    (hs : shlexSplit command = some (a0 :: rest)) (hloc : env.locatable a0 = false) :
    run cap env command check mode false =
      some (.error (.commandNotFound ("Command not found: " ++ a0)), []) := by
  simp [run, hs, _execute_process, hloc]

lemma run_deadlock_eq (cap : Nat) (env : Env) (command : String) (check : Bool)
    (mode : OutputMode) (a0 : String) (rest : List String)
    (hs : shlexSplit command = some (a0 :: rest)) (hloc : env.locatable a0 = true)
    (hd : simulateDrain cap (env.behavior (a0 :: rest)).writes [] [] = none) :
    run cap env command check mode false = none := by
  simp [run, hs, _execute_process, hloc, hd]

lemma run_complete_eq (cap : Nat) (env : Env) (command : String) (check : Bool)
    (mode : OutputMode) (a0 : String) (rest : List String) (outs errs : List String)
    (hs : shlexSplit command = some (a0 :: rest)) (hloc : env.locatable a0 = true)
    (hd : simulateDrain cap (env.behavior (a0 :: rest)).writes [] [] = some (outs, errs)) :
    run cap env command check mode false =
      (if check = true ∧ (drainResult (env.behavior (a0 :: rest)) outs errs).returncode ≠ 0 then
        some (.error (.commandFailed
            (drainResult (env.behavior (a0 :: rest)) outs errs).returncode
            (a0 :: rest)
            (drainResult (env.behavior (a0 :: rest)) outs errs).stdout
            (drainResult (env.behavior (a0 :: rest)) outs errs).stderr),
          runEffects command mode (a0 :: rest) outs errs
            (drainResult (env.behavior (a0 :: rest)) outs errs))
      else
        some (.ok (drainResult (env.behavior (a0 :: rest)) outs errs),
          runEffects command mode (a0 :: rest) outs errs
            (drainResult (env.behavior (a0 :: rest)) outs errs))) := by
  by_cases hc : check = true ∧ (env.behavior (a0 :: rest)).exitCode ≠ 0
  · simp [run, hs, _execute_process, hloc, hd, drainResult, runEffects, hc]
  · simp [run, hs, _execute_process, hloc, hd, drainResult, runEffects, hc]

/-- Inversion: a non-dry `run` call that returns normally went down the
complete-drain path, and its result and effects have the canonical form. -/
lemma run_ok_inv (cap : Nat) (env : Env) (command : String) (check : Bool)
    (mode : OutputMode) (r : ShellResult) (effs : List Effect)
    (h : run cap env command check mode false = some (.ok r, effs)) :
    ∃ a0 rest outs errs,
      shlexSplit command = some (a0 :: rest) ∧
      env.locatable a0 = true ∧
      simulateDrain cap (env.behavior (a0 :: rest)).writes [] [] = some (outs, errs) ∧
      r = drainResult (env.behavior (a0 :: rest)) outs errs ∧
      effs = runEffects command mode (a0 :: rest) outs errs r := by
  cases hs : shlexSplit command with
  | none =>
    rw [run_valueError_eq cap env command check mode hs] at h
    simp at h
  | some args =>
    cases args with
    | nil =>
      rw [run_empty_argv_eq cap env command check mode hs] at h
      simp at h
    | cons a0 rest =>
      cases hloc : env.locatable a0 with
      | false =>
        rw [run_commandNotFound_eq cap env command check mode a0 rest hs hloc] at h
        simp at h
      | true =>
        cases hd : simulateDrain cap (env.behavior (a0 :: rest)).writes [] [] with
        | none =>
          rw [run_deadlock_eq cap env command check mode a0 rest hs hloc hd] at h
          simp at h
        | some oe =>
          obtain ⟨outs, errs⟩ := oe
          rw [run_complete_eq cap env command check mode a0 rest outs errs hs hloc hd] at h
          by_cases hc : check = true ∧
              (drainResult (env.behavior (a0 :: rest)) outs errs).returncode ≠ 0
          · rw [if_pos hc] at h
            simp at h
          · rw [if_neg hc] at h
            simp only [Option.some.injEq, Prod.mk.injEq, Except.ok.injEq] at h
            obtain ⟨h1, h2⟩ := h
            refine ⟨a0, rest, outs, errs, rfl, hloc, hd, h1.symm, ?_⟩
            rw [← h2, h1]

/-- Inversion: a non-dry `run` call that raises `FileNotFoundError` found a
nonempty argument vector whose first token is not locatable. -/
lemma run_commandNotFound_inv (cap : Nat) (env : Env) (command : String) (check : Bool)
    (mode : OutputMode) (msg : String) (effs : List Effect)
    (h : run cap env command check mode false = some (.error (.commandNotFound msg), effs)) :
    ∃ a0 rest,
      shlexSplit command = some (a0 :: rest) ∧
      env.locatable a0 = false ∧
      msg = "Command not found: " ++ a0 ∧ effs = [] := by
  cases hs : shlexSplit command with
  | none =>
    rw [run_valueError_eq cap env command check mode hs] at h
    simp at h
  | some args =>
    cases args with
    | nil =>
      rw [run_empty_argv_eq cap env command check mode hs] at h
      simp at h
    | cons a0 rest =>
      cases hloc : env.locatable a0 with
      | false =>
        rw [run_commandNotFound_eq cap env command check mode a0 rest hs hloc] at h
        simp only [Option.some.injEq, Prod.mk.injEq, Except.error.injEq,
          RunError.commandNotFound.injEq] at h
        exact ⟨a0, rest, rfl, hloc, h.1.symm, h.2.symm⟩
      | true =>
        cases hd : simulateDrain cap (env.behavior (a0 :: rest)).writes [] [] with
        | none =>
          rw [run_deadlock_eq cap env command check mode a0 rest hs hloc hd] at h
          simp at h
        | some oe =>
          obtain ⟨outs, errs⟩ := oe
          rw [run_complete_eq cap env command check mode a0 rest outs errs hs hloc hd] at h
          by_cases hc : check = true ∧
              (drainResult (env.behavior (a0 :: rest)) outs errs).returncode ≠ 0
          · rw [if_pos hc] at h
            simp at h
          · rw [if_neg hc] at h
            simp at h

/-! ## Lemmas about `run_parallel` -/

/-- Master lemma for the worker loop: when every command has a recordable
outcome (it completes, either normally or with a captured spawn failure),
the loop completes with a mapping that answers `singleOutcome` on the
batch's commands and leaves other keys to the starting accumulator; key
nodup-ness is preserved. -/
lemma runParallelGo_spec (cap : Nat) (env : Env) :
    ∀ (cs : List String) (acc : List (String × ShellResult)),
      (∀ cmd ∈ cs, (singleOutcome cap env cmd).isSome) →
      ∃ m, runParallelGo cap env cs acc = some (.ok m) ∧
        (∀ k, dictFind k m = if k ∈ cs then singleOutcome cap env k else dictFind k acc) ∧
        ((acc.map Prod.fst).Nodup → (m.map Prod.fst).Nodup) := by
  intro cs
  induction cs with
  | nil =>
    intro acc _
    refine ⟨acc, rfl, ?_, fun h => h⟩
    intro k
    simp
  | cons cmd rest ih =>
    intro acc hall
    have hcmd : (singleOutcome cap env cmd).isSome := hall cmd (by simp)
    have hrest : ∀ c ∈ rest, (singleOutcome cap env c).isSome := by
      intro c hc
      exact hall c (by simp [hc])
    cases hrun : run cap env cmd false OutputMode.capture false with
    | none =>
      exfalso
      rw [singleOutcome, hrun] at hcmd
      simp at hcmd
    | some pr =>
      obtain ⟨exc, effs⟩ := pr
      cases exc with
      | ok r =>
        have hso : singleOutcome cap env cmd = some r := by
          rw [singleOutcome, hrun]
        obtain ⟨m, hm, hfind, hnodup⟩ := ih (dictInsert cmd r acc) hrest
        refine ⟨m, ?_, ?_, ?_⟩
        · simp only [runParallelGo, hrun]
          exact hm
        · intro k
          rw [hfind k]
          by_cases hk : k ∈ rest
          · simp [hk]
          · by_cases hkc : k = cmd
            · subst hkc
              simp [hk, hso]
            · simp [hk, hkc, dictFind_dictInsert_ne cmd k r acc hkc]
        · intro hacc
          exact hnodup (dictInsert_keys_nodup cmd r acc hacc)
      | error e =>
        cases e with
        | commandNotFound msg =>
          have hso : singleOutcome cap env cmd = some (syntheticFailure msg) := by
            rw [singleOutcome, hrun]
          obtain ⟨m, hm, hfind, hnodup⟩ := ih (dictInsert cmd (syntheticFailure msg) acc) hrest
          refine ⟨m, ?_, ?_, ?_⟩
          · simp only [runParallelGo, hrun]
            exact hm
          · intro k
            rw [hfind k]
            by_cases hk : k ∈ rest
            · simp [hk]
            · by_cases hkc : k = cmd
              · subst hkc
                simp [hk, hso]
              · simp [hk, hkc, dictFind_dictInsert_ne cmd k (syntheticFailure msg) acc hkc]
          · intro hacc
            exact hnodup (dictInsert_keys_nodup cmd (syntheticFailure msg) acc hacc)
        | valueError =>
          exfalso
          rw [singleOutcome, hrun] at hcmd
          simp at hcmd
        | indexError =>
          exfalso
          rw [singleOutcome, hrun] at hcmd
          simp at hcmd
        | commandFailed rc c o s =>
          exfalso
          rw [singleOutcome, hrun] at hcmd
          simp at hcmd

/-- Every entry of a completed batch mapping either was there at the start
or is the recorded outcome of its own command. -/
lemma runParallelGo_mem (cap : Nat) (env : Env) :
    ∀ (cs : List String) (acc m : List (String × ShellResult)),
      runParallelGo cap env cs acc = some (.ok m) →
      ∀ p ∈ m, p ∈ acc ∨ singleOutcome cap env p.1 = some p.2 := by
  intro cs
  induction cs with
  | nil =>
    intro acc m h p hp
    simp only [runParallelGo, Option.some.injEq, Except.ok.injEq] at h
    exact Or.inl (h ▸ hp)
  | cons cmd rest ih =>
    intro acc m h p hp
    cases hrun : run cap env cmd false OutputMode.capture false with
    | none =>
      rw [runParallelGo, hrun] at h
      exact absurd h (by simp)
    | some pr =>
      obtain ⟨exc, effs⟩ := pr
      cases exc with
      | ok r =>
        simp only [runParallelGo, hrun] at h
        rcases ih (dictInsert cmd r acc) m h p hp with hi | hi
        · rcases dictInsert_mem cmd r acc p hi with h1 | h1
          · right
            rw [h1]
            rw [singleOutcome, hrun]
          · exact Or.inl h1
        · exact Or.inr hi
      | error e =>
        cases e with
        | commandNotFound msg =>
          simp only [runParallelGo, hrun] at h
          rcases ih (dictInsert cmd (syntheticFailure msg) acc) m h p hp with hi | hi
          · rcases dictInsert_mem cmd (syntheticFailure msg) acc p hi with h1 | h1
            · right
              rw [h1]
              rw [singleOutcome, hrun]
            · exact Or.inl h1
          · exact Or.inr hi
        | valueError =>
          rw [runParallelGo, hrun] at h
          exact absurd h (by simp)
        | indexError =>
          rw [runParallelGo, hrun] at h
          exact absurd h (by simp)
        | commandFailed rc c o s =>
          rw [runParallelGo, hrun] at h
          exact absurd h (by simp)

/-- The mapping `run_parallel` returns (when every command has a recordable
outcome): lookups answer `singleOutcome` and the key list has no
duplicates. -/
lemma run_parallel_spec (cap : Nat) (env : Env) (commands : List String)
    (hall : ∀ cmd ∈ commands, (singleOutcome cap env cmd).isSome) :
    ∃ m, run_parallel cap env commands = some (.ok m) ∧
      (∀ k, dictFind k m = if k ∈ commands then singleOutcome cap env k else none) ∧
      (m.map Prod.fst).Nodup := by
  obtain ⟨m, hm, hfind, hnodup⟩ := runParallelGo_spec cap env commands [] hall
  refine ⟨m, hm, ?_, hnodup (by simp)⟩
  intro k
  rw [hfind k]
  by_cases hk : k ∈ commands
  · simp [hk]
  · simp [hk, dictFind]

/-- The process-id invariant of one recorded outcome: nonnegative exactly
when a real process was created for that command. -/
lemma singleOutcome_pid (cap : Nat) (env : Env) (cmd : String) (r : ShellResult)
    (h : singleOutcome cap env cmd = some r) :
    0 ≤ r.pid ↔ realProcessCreated env cmd = true := by
  cases hrun : run cap env cmd false OutputMode.capture false with
  | none =>
    rw [singleOutcome, hrun] at h
    exact absurd h (by simp)
  | some pr =>
    obtain ⟨exc, effs⟩ := pr
    cases exc with
    | ok r' =>
      rw [singleOutcome, hrun] at h
      simp only [Option.some.injEq] at h
      obtain ⟨a0, rest, outs, errs, hs, hloc, hd, hr, -⟩ :=
        run_ok_inv cap env cmd false OutputMode.capture r' effs hrun
      subst h
      constructor
      · intro _
        simp [realProcessCreated, hs, hloc]
      · intro _
        rw [hr]
        simp [drainResult]
    | error e =>
      cases e with
      | commandNotFound msg =>
        rw [singleOutcome, hrun] at h
        simp only [Option.some.injEq] at h
        obtain ⟨a0, rest, hs, hloc, -, -⟩ :=
          run_commandNotFound_inv cap env cmd false OutputMode.capture msg effs hrun
        constructor
        · intro hp
          rw [← h] at hp
          norm_num [syntheticFailure] at hp
        · intro hp
          simp [realProcessCreated, hs, hloc] at hp
      | valueError =>
        rw [singleOutcome, hrun] at h
        exact absurd h (by simp)
      | indexError =>
        rw [singleOutcome, hrun] at h
        exact absurd h (by simp)
      | commandFailed rc c o s =>
        rw [singleOutcome, hrun] at h
        exact absurd h (by simp)

/-! ## Claims -/

/-- C1, counterexample: the claim says the two pipes are drained
concurrently so that a process producing large output on one stream cannot
deadlock the drain of the other.  In the source the two `for` loops of
`_execute_process` are sequential (stdout to EOF, then stderr), so a
process emitting three stderr lines against a two-line pipe buffer blocks
writing stderr while the parent is still blocked reading stdout: the
`run` call never returns. -/
theorem C1_counterexample :
    run 2 envDemo "chatty" true OutputMode.capture false = none := rfl

/-- C1, amended: the two pipes are drained sequentially — stdout is read
to EOF first, then stderr, so the stderr read begins only after stdout's
completion — and for a located command the drain deadlocks exactly when
the process emits more stderr lines than the stderr pipe buffer holds
before it exits. -/
theorem C1_sequential_drain (cap : Nat) (env : Env) (a0 : String) (rest : List String)
    (b : Bool) (hloc : env.locatable a0 = true) :
    _execute_process cap env (a0 :: rest) b = .ok none ↔
      cap < (errLines (env.behavior (a0 :: rest)).writes).length := by
  have hmain : _execute_process cap env (a0 :: rest) b = .ok none ↔
      simulateDrain cap (env.behavior (a0 :: rest)).writes [] [] = none := by
    unfold _execute_process
    cases hd : simulateDrain cap (env.behavior (a0 :: rest)).writes [] [] with
    | none => simp [hloc, hd]
    | some oe =>
      obtain ⟨outs, errs⟩ := oe
      simp [hloc, hd]
  rw [hmain]
  have h := simulateDrain_eq_none_iff cap (env.behavior (a0 :: rest)).writes [] [] (by simp)
  simpa using h

/-- C1, witness for the amended theorem at the concrete `chatty` process. -/
theorem C1_sequential_drain_witness :
    envDemo.locatable "chatty" = true ∧
    (_execute_process 2 envDemo ["chatty"] false = .ok none ↔
      2 < (errLines (envDemo.behavior ["chatty"]).writes).length) :=
  ⟨by decide, C1_sequential_drain 2 envDemo "chatty" [] false (by decide)⟩

/-- C2, counterexample: the claim says a command tokenizing to zero tokens
is rejected as a caller error before any spawn is attempted.  In the
source there is no such check: `shlex.split("")` yields `[]`, the empty
argument vector is handed to `subprocess.Popen`, and the resulting
`IndexError` (raised inside the spawn facility, uncaught by `run`)
propagates — not a typed caller-error rejection. -/
theorem C2_counterexample :
    run 4 envDemo "" true OutputMode.capture false =
      some (.error RunError.indexError, []) := rfl

/-- C2, amended: for every command whose tokenization yields zero tokens,
`run` (dry_run false) passes the empty argument vector to the spawn
facility, which fails with `IndexError` before creating any process (the
effect list is empty, in particular no spawn effect occurs); `run`
propagates that `IndexError` rather than rejecting beforehand. -/
theorem C2_empty_command (cap : Nat) (env : Env) (command : String) (check : Bool)
    (mode : OutputMode) (hs : shlexSplit command = some []) :
    run cap env command check mode false = some (.error RunError.indexError, []) :=
  run_empty_argv_eq cap env command check mode hs

/-- C2, witness: the empty command string. -/
theorem C2_empty_command_witness :
    shlexSplit "" = some [] ∧
    run 4 envDemo "" true OutputMode.capture false =
      some (.error RunError.indexError, []) :=
  ⟨rfl, C2_empty_command 4 envDemo "" true OutputMode.capture rfl⟩

/-- C3: whenever a `check=false` call returns a result with non-zero exit
code, the same call with `check=true` raises `CalledProcessError` carrying
exactly that result's returncode, stdout and stderr. -/
theorem C3_check_consistency (cap : Nat) (env : Env) (cmd : String) (mode : OutputMode)
    (args : List String) (r : ShellResult) (effs : List Effect)
    (hargs : shlexSplit cmd = some args)
    (h : run cap env cmd false mode false = some (.ok r, effs))
    (hr : r.returncode ≠ 0) :
    run cap env cmd true mode false =
      some (.error (.commandFailed r.returncode args r.stdout r.stderr), effs) := by
  obtain ⟨a0, rest, outs, errs, hs, hloc, hd, hreq, heffs⟩ :=
    run_ok_inv cap env cmd false mode r effs h
  have hargs2 : args = a0 :: rest := Option.some.inj (hargs.symm.trans hs)
  subst hargs2
  rw [run_complete_eq cap env cmd true mode a0 rest outs errs hs hloc hd]
  rw [if_pos ⟨rfl, by rw [← hreq]; exact hr⟩]
  rw [← hreq, ← heffs]

/-- C3, witness at the `failing` process (exit code 2). -/
theorem C3_check_consistency_witness :
    shlexSplit "failing" = some ["failing"] ∧
    run 4 envDemo "failing" false OutputMode.capture false =
      some (.ok { stdout := "", stderr := "boom\n", returncode := 2, pid := 44 },
        [Effect.spawn ["failing"]]) ∧
    run 4 envDemo "failing" true OutputMode.capture false =
      some (.error (.commandFailed 2 ["failing"] "" "boom\n"), [Effect.spawn ["failing"]]) :=
  ⟨rfl, rfl,
    C3_check_consistency 4 envDemo "failing" OutputMode.capture ["failing"]
      { stdout := "", stderr := "boom\n", returncode := 2, pid := 44 }
      [Effect.spawn ["failing"]] rfl rfl (by decide)⟩

/-- C4: a command whose first token is not locatable raises
`FileNotFoundError` for every value of `check` — `check=false` does not
suppress this spawn-time error class. -/
theorem C4_command_not_found (cap : Nat) (env : Env) (cmd : String) (check : Bool)
    (mode : OutputMode) (a0 : String) (rest : List String)
    (hs : shlexSplit cmd = some (a0 :: rest)) (hloc : env.locatable a0 = false) :
    run cap env cmd check mode false =
      some (.error (.commandNotFound ("Command not found: " ++ a0)), []) :=
  run_commandNotFound_eq cap env cmd check mode a0 rest hs hloc

/-- C4, witness: the `missing` command with `check=false` still raises. -/
theorem C4_command_not_found_witness :
    shlexSplit "missing" = some ["missing"] ∧
    envDemo.locatable "missing" = false ∧
    run 4 envDemo "missing" false OutputMode.capture false =
      some (.error (.commandNotFound "Command not found: missing"), []) :=
  ⟨rfl, by decide,
    C4_command_not_found 4 envDemo "missing" false OutputMode.capture "missing" [] rfl (by decide)⟩

/-- C5: in `run_parallel`, a command whose spawn fails with
`FileNotFoundError` does not abort the batch: the batch completes, the
failing command's key carries the synthetic result (exit code 1, error
text in stderr, empty stdout, pid -1), and every command of the batch has
a recorded result. -/
theorem C5_parallel_spawn_failure_captured (cap : Nat) (env : Env)
    (commands : List String) (cmd a0 : String) (rest : List String)
    (hall : ∀ c ∈ commands, (singleOutcome cap env c).isSome)
    (hmem : cmd ∈ commands)
    (hs : shlexSplit cmd = some (a0 :: rest))
    (hloc : env.locatable a0 = false) :
    ∃ m, run_parallel cap env commands = some (.ok m) ∧
      dictFind cmd m = some
        { stdout := "", stderr := "Command not found: " ++ a0, returncode := 1, pid := -1 } ∧
      ∀ c ∈ commands, (dictFind c m).isSome := by
  obtain ⟨m, hm, hfind, hnodup⟩ := run_parallel_spec cap env commands hall
  refine ⟨m, hm, ?_, ?_⟩
  · rw [hfind cmd, if_pos hmem, singleOutcome,
      run_commandNotFound_eq cap env cmd false OutputMode.capture a0 rest hs hloc]
    rfl
  · intro c hc
    rw [hfind c, if_pos hc]
    exact hall c hc

/-- C5, witness: a batch containing a located command and a missing one. -/
theorem C5_parallel_spawn_failure_captured_witness :
    (∀ c ∈ ["prog", "missing"], (singleOutcome 4 envDemo c).isSome) ∧
    "missing" ∈ ["prog", "missing"] ∧
    shlexSplit "missing" = some ["missing"] ∧
    envDemo.locatable "missing" = false ∧
    ∃ m, run_parallel 4 envDemo ["prog", "missing"] = some (.ok m) ∧
      dictFind "missing" m = some
        { stdout := "", stderr := "Command not found: missing", returncode := 1, pid := -1 } ∧
      ∀ c ∈ ["prog", "missing"], (dictFind c m).isSome :=
  ⟨by decide, by decide, rfl, by decide,
    C5_parallel_spawn_failure_captured 4 envDemo ["prog", "missing"] "missing" "missing" []
      (by decide) (by decide) rfl (by decide)⟩

/-- C6: `run_parallel` returns a mapping whose key list is duplicate-free
and whose key set is exactly the set of distinct command strings of the
input (textually identical duplicates collapse), and each key maps to the
outcome of running that command on its own — independent of the other
commands of the batch. -/
theorem C6_parallel_mapping (cap : Nat) (env : Env) (commands : List String)
    (hall : ∀ c ∈ commands, (singleOutcome cap env c).isSome) :
    ∃ m, run_parallel cap env commands = some (.ok m) ∧
      (m.map Prod.fst).Nodup ∧
      (∀ k, k ∈ m.map Prod.fst ↔ k ∈ commands) ∧
      (∀ c ∈ commands, dictFind c m = singleOutcome cap env c) := by
  obtain ⟨m, hm, hfind, hnodup⟩ := run_parallel_spec cap env commands hall
  refine ⟨m, hm, hnodup, ?_, ?_⟩
  · intro k
    rw [mem_keys_iff_dictFind_isSome, hfind k]
    by_cases hk : k ∈ commands
    · simp [hk, hall k hk]
    · simp [hk]
  · intro c hc
    rw [hfind c, if_pos hc]

/-- C6, witness: a batch with a textual duplicate and a failing command. -/
theorem C6_parallel_mapping_witness :
    (∀ c ∈ ["prog", "prog", "failing"], (singleOutcome 4 envDemo c).isSome) ∧
    ∃ m, run_parallel 4 envDemo ["prog", "prog", "failing"] = some (.ok m) ∧
      (m.map Prod.fst).Nodup ∧
      (∀ k, k ∈ m.map Prod.fst ↔ k ∈ ["prog", "prog", "failing"]) ∧
      (∀ c ∈ ["prog", "prog", "failing"], dictFind c m = singleOutcome 4 envDemo c) :=
  ⟨by decide, C6_parallel_mapping 4 envDemo ["prog", "prog", "failing"] (by decide)⟩

/-- C7: a dry run spawns no process and returns the synthetic result
(pid -1, exit code 0, empty stdout and stderr); its only side effect is
the diagnostic message reporting the command line. -/
theorem C7_dry_run (cap : Nat) (env : Env) (command : String) (check : Bool)
    (mode : OutputMode) :
    run cap env command check mode true =
      some (.ok { stdout := "", stderr := "", returncode := 0, pid := -1 },
        [Effect.infoMsg ("[DRY RUN] Would execute: [bold]" ++ command ++ "[/bold]")]) ∧
    ∀ argv, Effect.spawn argv ∉
      [Effect.infoMsg ("[DRY RUN] Would execute: [bold]" ++ command ++ "[/bold]")] :=
  ⟨rfl, by intro argv; simp⟩

/-- C8: a `ShellResult` carries a nonnegative pid exactly when a real OS
process was created — for `run` results (any flags, dry run included) the
pid is nonnegative iff a spawn effect occurred, and for every entry of a
`run_parallel` mapping the pid is nonnegative iff that command's own spawn
succeeded.  (Immutability of the result holds by construction: the source
declares `ShellResult` a frozen dataclass, embedded as a Lean structure.) -/
theorem C8_pid_invariant (cap : Nat) (env : Env) :
    (∀ (cmd : String) (check : Bool) (mode : OutputMode) (dry : Bool)
        (r : ShellResult) (effs : List Effect),
        run cap env cmd check mode dry = some (.ok r, effs) →
        (0 ≤ r.pid ↔ ∃ argv, Effect.spawn argv ∈ effs)) ∧
    (∀ (commands : List String) (m : List (String × ShellResult)) (cmd : String)
        (r : ShellResult),
        run_parallel cap env commands = some (.ok m) →
        (cmd, r) ∈ m →
        (0 ≤ r.pid ↔ realProcessCreated env cmd = true)) := by
  constructor
  · intro cmd check mode dry r effs h
    cases dry with
    | true =>
      rw [run_dry_eq] at h
      simp only [Option.some.injEq, Prod.mk.injEq, Except.ok.injEq] at h
      obtain ⟨h1, h2⟩ := h
      subst h1
      subst h2
      simp
    | false =>
      obtain ⟨a0, rest, outs, errs, hs, hloc, hd, hreq, heffs⟩ :=
        run_ok_inv cap env cmd check mode r effs h
      constructor
      · intro _
        refine ⟨a0 :: rest, ?_⟩
        rw [heffs]
        simp [runEffects]
      · intro _
        rw [hreq]
        simp [drainResult]
  · intro commands m cmd r hm hmem
    have hm' : runParallelGo cap env commands [] = some (.ok m) := hm
    rcases runParallelGo_mem cap env commands [] m hm' (cmd, r) hmem with h | h
    · simp at h
    · exact singleOutcome_pid cap env cmd r h

/-- C8, witness: a completed run of `prog` (positive pid, spawn effect
recorded). -/
theorem C8_pid_invariant_witness :
    run 4 envDemo "prog" true OutputMode.capture false =
      some (.ok { stdout := "out\n", stderr := "err\n", returncode := 0, pid := 42 },
        [Effect.spawn ["prog"]]) ∧
    (0 ≤ ({ stdout := "out\n", stderr := "err\n", returncode := 0, pid := 42 } : ShellResult).pid ↔
      ∃ argv, Effect.spawn argv ∈ [Effect.spawn ["prog"]]) :=
  ⟨rfl,
    (C8_pid_invariant 4 envDemo).1 "prog" true OutputMode.capture false
      { stdout := "out\n", stderr := "err\n", returncode := 0, pid := 42 }
      [Effect.spawn ["prog"]] rfl⟩

/-- C9: the result's stdout and stderr are the concatenations of the lines
accumulated from the corresponding stream, in each stream's emission
order, terminators preserved. -/
theorem C9_output_concatenation (cap : Nat) (env : Env) (cmd : String) (check : Bool)
    (mode : OutputMode) (args : List String) (r : ShellResult) (effs : List Effect)
    (hargs : shlexSplit cmd = some args)
    (h : run cap env cmd check mode false = some (.ok r, effs)) :
    r.stdout = String.join (outLines (env.behavior args).writes) ∧
    r.stderr = String.join (errLines (env.behavior args).writes) := by
  obtain ⟨a0, rest, outs, errs, hs, hloc, hd, hreq, -⟩ :=
    run_ok_inv cap env cmd check mode r effs h
  have hargs2 : args = a0 :: rest := Option.some.inj (hargs.symm.trans hs)
  subst hargs2
  obtain ⟨ho, he⟩ :=
    simulateDrain_some cap (env.behavior (a0 :: rest)).writes [] [] outs errs hd
  rw [hreq]
  simp only [drainResult, ho, he]
  simp

/-- C9, witness: the scenario of the claim — a process emitting
`a\nb\nc` (no trailing terminator) in capture mode yields stdout exactly
`"a\nb\nc"` with exit code 0. -/
theorem C9_output_concatenation_witness :
    shlexSplit "printf 'a\\nb\\nc'" = some ["printf", "a\\nb\\nc"] ∧
    run 8 envDemo "printf 'a\\nb\\nc'" true OutputMode.capture false =
      some (.ok { stdout := "a\nb\nc", stderr := "", returncode := 0, pid := 7 },
        [Effect.spawn ["printf", "a\\nb\\nc"]]) ∧
    ({ stdout := "a\nb\nc", stderr := "", returncode := 0, pid := 7 } : ShellResult).stdout =
      String.join (outLines (envDemo.behavior ["printf", "a\\nb\\nc"]).writes) :=
  ⟨rfl, rfl,
    (C9_output_concatenation 8 envDemo "printf 'a\\nb\\nc'" true OutputMode.capture
      ["printf", "a\\nb\\nc"]
      { stdout := "a\nb\nc", stderr := "", returncode := 0, pid := 7 }
      [Effect.spawn ["printf", "a\\nb\\nc"]] rfl rfl).1⟩

/-- C10: for a fixed command, environment and `check` flag, the returned
data — the `Except RunError ShellResult` component, i.e. the result fields
and whether/what `check` raises — is identical across all output modes;
only the recorded presentation effects can differ. -/
theorem C10_output_mode_noninterference (cap : Nat) (env : Env) (command : String)
    (check : Bool) (dry : Bool) (m1 m2 : OutputMode) :
    Option.map Prod.fst (run cap env command check m1 dry) =
    Option.map Prod.fst (run cap env command check m2 dry) := by
  cases dry with
  | true => rfl
  | false =>
    cases hs : shlexSplit command with
    | none =>
      rw [run_valueError_eq cap env command check m1 hs,
        run_valueError_eq cap env command check m2 hs]
    | some args =>
      cases args with
      | nil =>
        rw [run_empty_argv_eq cap env command check m1 hs,
          run_empty_argv_eq cap env command check m2 hs]
      | cons a0 rest =>
        cases hloc : env.locatable a0 with
        | false =>
          rw [run_commandNotFound_eq cap env command check m1 a0 rest hs hloc,
            run_commandNotFound_eq cap env command check m2 a0 rest hs hloc]
        | true =>
          cases hd : simulateDrain cap (env.behavior (a0 :: rest)).writes [] [] with
          | none =>
            rw [run_deadlock_eq cap env command check m1 a0 rest hs hloc hd,
              run_deadlock_eq cap env command check m2 a0 rest hs hloc hd]
          | some oe =>
            obtain ⟨outs, errs⟩ := oe
            rw [run_complete_eq cap env command check m1 a0 rest outs errs hs hloc hd,
              run_complete_eq cap env command check m2 a0 rest outs errs hs hloc hd]
            by_cases hc : check = true ∧
                (drainResult (env.behavior (a0 :: rest)) outs errs).returncode ≠ 0
            · rw [if_pos hc, if_pos hc]
              simp
            · rw [if_neg hc, if_neg hc]
              simp

end Scriptize
